import Mathlib

/-!
Verification development for the zod demonstration script `src/main.tsx` of
the repository `typescript-with-zod`.

The script defines a handful of schemas with the `zod` validation library
(`UserSchema`, `UserRecord`, `UserMap`, `PromiseSchema`, `BrandEmail`),
feeds each one an example value, logs the parsed results to the console, and
finally demonstrates `safeParse` together with the `fromZodError` formatting
helper of `zod-validation-error`.

The embedding below models JavaScript runtime values as the inductive type
`Value`, each zod schema as a `Parser` (a function from values to either a
list of validation issues or the parsed output value), and the top-to-bottom
execution of the script as `runWith`, which records the sequence of validator
calls, the console output of every snippet, and whether an uncaught
validation error crashed the script.

The zod library itself is not part of this repository; its combinators are
modelled from the validation semantics the repository relies on and
documents (for example the comment that `z.record` validates values but not
keys, and the two-step description of promise validation).
-/

set_option autoImplicit false

namespace ZodDemo

/-- A JavaScript runtime value, as far as the script needs: strings, numbers
(modelled as rationals so that the integer check of `z.number().int()` is
meaningful), booleans, `Date` objects (carrying their timestamp), `null`,
`undefined`, `Error` instances, arrays, plain objects (association lists of
string keys), `Map` objects, and promises (carrying the value they resolve
to, which a synchronous parse must not inspect). -/
inductive Value where
  | vstr (s : String)
  | vnum (q : Rat)
  | vbool (b : Bool)
  | vdate (ms : Int)
  | vnull
  | vundefined
  | verror
  | varr (xs : List Value)
  | vobj (fields : List (String × Value))
  | vmap (entries : List (Value × Value))
  | vpromise (resolved : Value)

/-- A single zod validation issue: an issue code and a human-readable
message, the two ingredients `fromZodError` needs. -/
structure Issue where
  code : String
  message : String
deriving DecidableEq

/-- A schema, modelled by its synchronous parse behaviour: it either throws
(a nonempty list of `Issue`s, the payload of a `ZodError`) or returns the
parsed output value. -/
def Parser := Value → Except (List Issue) Value

/-- The `invalid_type` issue zod raises when the input has the wrong
runtime type. -/
def invalidType (expected : String) : Issue :=
  ⟨"invalid_type", "Expected " ++ expected⟩

/-- Field lookup in a JavaScript object, modelled on association lists. -/
def lookupField : List (String × Value) → String → Option Value
  | [], _ => none
  | (k, v) :: rest, key => if k = key then some v else lookupField rest key

/-- The value an object carries at a key: the stored value, or `undefined`
when the key is absent (JavaScript property access semantics). -/
def valueAt (fields : List (String × Value)) (key : String) : Value :=
  (lookupField fields key).getD .vundefined

/-- Modelled from the spec: zod object parsing keeps an output key when the
key was present on the input or the parsed value is not `undefined`. -/
def keepField (inp : Option Value) (o : Value) : Bool :=
  match o with
  | .vundefined => inp.isSome
  | _ => true

/-- Modelled from the spec: the field-by-field pass of zod object parsing.
Each declared field parses the input value found at its key (`undefined`
when absent); the issues of all fields are collected, and the output object
is assembled from the successfully parsed declared fields only, so unknown
input keys never reach the output. -/
def parseShape (shape : List (String × Parser)) (fields : List (String × Value)) :
    List Issue × List (String × Value) :=
  match shape with
  | [] => ([], [])
  | (key, p) :: rest =>
    let inp := lookupField fields key
    let r := p (inp.getD .vundefined)
    let ir := parseShape rest fields
    match r with
    | .ok o => (ir.1, if keepField inp o then (key, o) :: ir.2 else ir.2)
    | .error es => (es ++ ir.1, ir.2)

/-- Modelled from the spec: element-by-element parsing of an array, used by
`z.array`; issues of all elements are collected. -/
def elementsGo (p : Parser) : List Value → List Issue × List Value
  | [] => ([], [])
  | x :: xs =>
    let r := p x
    let ir := elementsGo p xs
    match r with
    | .ok o => (ir.1, o :: ir.2)
    | .error es => (es ++ ir.1, ir.2)

/-- Modelled from the spec: pairwise parsing of tuple items against tuple
inputs; a length mismatch is an issue of its own. -/
def tupleGo : List Parser → List Value → List Issue × List Value
  | [], [] => ([], [])
  | [], _ :: _ => ([⟨"too_big", "Array must contain at most the declared items"⟩], [])
  | _ :: _, [] => ([⟨"too_small", "Array must contain at least the declared items"⟩], [])
  | p :: ps, x :: xs =>
    let r := p x
    let ir := tupleGo ps xs
    match r with
    | .ok o => (ir.1, o :: ir.2)
    | .error es => (es ++ ir.1, ir.2)

/-- Modelled from the spec: parsing of the key/value entries of a `Map`. -/
def mapGo (pk pv : Parser) : List (Value × Value) → List Issue × List (Value × Value)
  | [] => ([], [])
  | (k, v) :: rest =>
    let rk := pk k
    let rv := pv v
    let ir := mapGo pk pv rest
    match rk, rv with
    | .ok ko, .ok vo => (ir.1, (ko, vo) :: ir.2)
    | .error es, .ok _ => (es ++ ir.1, ir.2)
    | .ok _, .error es => (es ++ ir.1, ir.2)
    | .error es1, .error es2 => (es1 ++ es2 ++ ir.1, ir.2)

/-- Modelled from the spec: `z.record` parsing of an object validates every
property value, keeping the keys untouched ("z.record validates the values
of keys, but not the keys themselves"). -/
def recordGo (p : Parser) : List (String × Value) → List Issue × List (String × Value)
  | [] => ([], [])
  | (k, v) :: rest =>
    let r := p v
    let ir := recordGo p rest
    match r with
    | .ok o => (ir.1, (k, o) :: ir.2)
    | .error es => (es ++ ir.1, ir.2)

/-- Modelled from the spec: `z.union` tries each option in order and
returns the first success; when every option fails the union fails. -/
def unionGo : List Parser → Value → Except (List Issue) Value
  | [], _ => .error [⟨"invalid_union", "Invalid input"⟩]
  | p :: rest, v =>
    match p v with
    | .ok o => .ok o
    | .error _ => unionGo rest v

/-- Lookup of a discriminated-union option by its discriminator value. -/
def discGo : List (String × List (String × Parser)) → String → Option (List (String × Parser))
  | [], _ => none
  | (d, shape) :: rest, key => if d = key then some shape else discGo rest key

namespace z

/-- Modelled from the spec: `z.string()` accepts exactly string inputs. -/
def string : Parser := fun v =>
  match v with
  | .vstr _ => .ok v
  | _ => .error [invalidType "string"]

/-- Modelled from the spec: `z.number()` accepts exactly number inputs. -/
def number : Parser := fun v =>
  match v with
  | .vnum _ => .ok v
  | _ => .error [invalidType "number"]

/-- Modelled from the spec: `z.boolean()` accepts exactly boolean inputs. -/
def boolean : Parser := fun v =>
  match v with
  | .vbool _ => .ok v
  | _ => .error [invalidType "boolean"]

/-- Modelled from the spec: `z.date()` accepts exactly `Date` inputs. -/
def date : Parser := fun v =>
  match v with
  | .vdate _ => .ok v
  | _ => .error [invalidType "date"]

/-- Modelled from the spec: `z.literal(b)` for a boolean literal accepts
exactly that boolean value. -/
def literalBool (b : Bool) : Parser := fun v =>
  match v with
  | .vbool c => if b = c then .ok v else .error [⟨"invalid_literal", "Invalid literal value"⟩]
  | _ => .error [⟨"invalid_literal", "Invalid literal value"⟩]

/-- Modelled from the spec: `z.literal(s)` for a string literal accepts
exactly that string value. -/
def literalStr (s : String) : Parser := fun v =>
  match v with
  | .vstr t => if s = t then .ok v else .error [⟨"invalid_literal", "Invalid literal value"⟩]
  | _ => .error [⟨"invalid_literal", "Invalid literal value"⟩]

/-- Modelled from the spec: `z.enum([...])` accepts exactly the listed
string options. -/
def strEnum (options : List String) : Parser := fun v =>
  match v with
  | .vstr s => if options.contains s then .ok v else .error [⟨"invalid_enum_value", "Invalid enum value"⟩]
  | _ => .error [invalidType "string"]

/-- Modelled from the spec: `z.instanceof(Error)` accepts exactly `Error`
instances. -/
def instanceOfError : Parser := fun v =>
  match v with
  | .verror => .ok v
  | _ => .error [⟨"custom", "Input not instance of Error"⟩]

/-- Modelled from the spec: `z.array(p)` accepts arrays whose elements all
satisfy `p`, returning the array of parsed elements. -/
def array (p : Parser) : Parser := fun v =>
  match v with
  | .varr xs =>
    let ir := elementsGo p xs
    if ir.1.isEmpty then .ok (.varr ir.2) else .error ir.1
  | _ => .error [invalidType "array"]

/-- Modelled from the spec: `z.tuple([...])` accepts arrays matching the
item schemas pairwise. -/
def tuple (items : List Parser) : Parser := fun v =>
  match v with
  | .varr xs =>
    let ir := tupleGo items xs
    if ir.1.isEmpty then .ok (.varr ir.2) else .error ir.1
  | _ => .error [invalidType "array"]

/-- Modelled from the spec: `z.union([...])` accepts what some option
accepts. -/
def union (options : List Parser) : Parser := fun v => unionGo options v

/-- Modelled from the spec: `z.object({...})` accepts plain objects, parses
every declared field, and (being non-strict by default) strips unknown
keys from the output. -/
def object (shape : List (String × Parser)) : Parser := fun v =>
  match v with
  | .vobj fields =>
    let ir := parseShape shape fields
    if ir.1.isEmpty then .ok (.vobj ir.2) else .error ir.1
  | _ => .error [invalidType "object"]

/-- Modelled from the spec: `z.record(p)` accepts plain objects all of
whose property values satisfy `p`, regardless of the key names. -/
def record (p : Parser) : Parser := fun v =>
  match v with
  | .vobj fields =>
    let ir := recordGo p fields
    if ir.1.isEmpty then .ok (.vobj ir.2) else .error ir.1
  | _ => .error [invalidType "object"]

/-- Modelled from the spec: `z.map(pk, pv)` accepts `Map` inputs whose keys
satisfy `pk` and whose values satisfy `pv`. -/
def map (pk pv : Parser) : Parser := fun v =>
  match v with
  | .vmap entries =>
    let ir := mapGo pk pv entries
    if ir.1.isEmpty then .ok (.vmap ir.2) else .error ir.1
  | _ => .error [invalidType "map"]

/-- Modelled from the spec: promise validation has two steps; the
synchronous one only "checks if input is promise" and returns the promise,
deferring validation of the resolved value to a later `.then()`. -/
def promise (_inner : Parser) : Parser := fun v =>
  match v with
  | .vpromise x => .ok (.vpromise x)
  | _ => .error [invalidType "promise"]

/-- Modelled from the spec: `z.discriminatedUnion(key, [...])` requires an
object, reads the discriminator key, selects the option declared for that
literal discriminator value, and parses the object against it. -/
def discriminatedUnion (key : String) (options : List (String × List (String × Parser))) :
    Parser := fun v =>
  match v with
  | .vobj fields =>
    match lookupField fields key with
    | some (.vstr d) =>
      match discGo options d with
      | some shape =>
        let ir := parseShape shape fields
        if ir.1.isEmpty then .ok (.vobj ir.2) else .error ir.1
      | none => .error [⟨"invalid_union_discriminator", "Invalid discriminator value"⟩]
    | _ => .error [⟨"invalid_union_discriminator", "Invalid discriminator value"⟩]
  | _ => .error [invalidType "object"]

end z

/-- Modelled from the spec: the `.min(n)` check of a string schema rejects
strings shorter than `n` ("a string shorter than the minimum length is
rejected"). -/
def Parser.min (p : Parser) (n : Nat) : Parser := fun v =>
  match p v with
  | .ok (.vstr s) =>
    if s.length < n then
      .error [⟨"too_small", "String must contain at least the minimum number of characters"⟩]
    else .ok (.vstr s)
  | r => r

/-- Modelled from the spec: the `.gt(k)` check of a number schema requires
the number to be strictly greater than `k`. -/
def Parser.gt (p : Parser) (k : Rat) : Parser := fun v =>
  match p v with
  | .ok (.vnum q) =>
    if k < q then .ok (.vnum q)
    else .error [⟨"too_small", "Number must be greater than the bound"⟩]
  | r => r

/-- Modelled from the spec: the `.int()` check of a number schema requires
an integer. -/
def Parser.int (p : Parser) : Parser := fun v =>
  match p v with
  | .ok (.vnum q) =>
    if q.den = 1 then .ok (.vnum q)
    else .error [invalidType "integer"]
  | r => r

/-- Modelled from the spec: `.optional()` additionally accepts `undefined`,
passing it through. -/
def Parser.optional (p : Parser) : Parser := fun v =>
  match v with
  | .vundefined => .ok .vundefined
  | _ => p v

/-- Modelled from the spec: `.nullable()` additionally accepts `null`,
passing it through. -/
def Parser.nullable (p : Parser) : Parser := fun v =>
  match v with
  | .vnull => .ok .vnull
  | _ => p v

/-- Modelled from the spec: `.default(d)` replaces an `undefined` input by
the declared default value before parsing. -/
def Parser.default (p : Parser) (d : Value) : Parser := fun v =>
  match v with
  | .vundefined => p d
  | _ => p v

/-- Modelled from the spec: `.nonempty()` additionally rejects the empty
array. -/
def Parser.nonempty (p : Parser) : Parser := fun v =>
  match p v with
  | .ok (.varr []) => .error [⟨"too_small", "Array must contain at least 1 element(s)"⟩]
  | r => r

/-- A character the local part of an email address may contain. -/
def isLocalChar (c : Char) : Bool :=
  c.isAlphanum || c = '_' || c = '\x27' || c = '+' || c = '-' || c = '.'

/-- A character the local part of an email address may end with. -/
def isLocalEndChar (c : Char) : Bool :=
  c.isAlphanum || c = '_' || c = '+' || c = '-'

/-- No two consecutive dots. -/
def noDoubleDot : List Char → Bool
  | [] => true
  | [_] => true
  | '.' :: '.' :: _ => false
  | _ :: c :: rest => noDoubleDot (c :: rest)

/-- Splitting a character list at every occurrence of a separator. -/
def splitOnChar (sep : Char) : List Char → List (List Char)
  | [] => [[]]
  | c :: rest =>
    match splitOnChar sep rest, decide (c = sep) with
    | r, true => [] :: r
    | [], false => [[c]]
    | h :: t, false => (c :: h) :: t

/-- Validity of the local part of an email address: nonempty, made of the
allowed characters, not starting with a dot, no consecutive dots, and
ending in a letter, digit or one of underscore, plus, minus. -/
def localOk (l : List Char) : Bool :=
  match l with
  | [] => false
  | c :: _ =>
    l.all isLocalChar && !(c = '.') && noDoubleDot l &&
      (match l.getLast? with
       | some e => isLocalEndChar e
       | none => false)

/-- Validity of one domain label: nonempty, starting alphanumeric, then
alphanumeric or hyphen. -/
def labelOk (s : List Char) : Bool :=
  match s with
  | [] => false
  | c :: rest => c.isAlphanum && rest.all (fun d => d.isAlphanum || d = '-')

/-- Validity of the top-level domain: at least two letters. -/
def tldOk (s : List Char) : Bool :=
  decide (2 ≤ s.length) && s.all Char.isAlpha

/-- Validity of the domain of an email address: at least one label, a dot,
and a top-level domain. -/
def domainOk (s : List Char) : Bool :=
  let parts := splitOnChar '.' s
  match parts.getLast? with
  | none => false
  | some tld => decide (2 ≤ parts.length) && tldOk tld && parts.dropLast.all labelOk

/-- Modelled from the spec: the `.email()` string check of the validation
library (one local part, an at sign, a dotted domain). -/
def emailCheck (s : String) : Bool :=
  match splitOnChar '@' s.data with
  | [l, d] => localOk l && domainOk d
  | _ => false

/-- Modelled from the spec: the `.email()` check of a string schema. -/
def Parser.email (p : Parser) : Parser := fun v =>
  match p v with
  | .ok (.vstr s) =>
    if emailCheck s then .ok (.vstr s)
    else .error [⟨"invalid_string", "Invalid email"⟩]
  | r => r

/-- Modelled from the spec: `.refine(pred, message)` runs the schema and
then the custom predicate on the parsed value, failing with a custom issue
carrying the given message. -/
def Parser.refine (p : Parser) (pred : Value → Bool) (msg : String) : Parser := fun v =>
  match p v with
  | .ok o => if pred o then .ok o else .error [⟨"custom", msg⟩]
  | .error es => .error es

/-- The result object of `safeParse`: a success carrying the parsed data,
or a failure carrying the `ZodError` issues. -/
inductive SafeResult where
  | success (data : Value)
  | failure (error : List Issue)

/-- Modelled from the spec: `safeParse` runs the same synchronous parse but
wraps the outcome in a result object instead of throwing. -/
def Parser.safeParse (p : Parser) (v : Value) : SafeResult :=
  match p v with
  | .ok d => .success d
  | .error es => .failure es

/-- Modelled from the spec: the `fromZodError` helper of
`zod-validation-error` renders a `ZodError` as one human-readable line. -/
def fromZodError (es : List Issue) : String :=
  "Validation error: " ++ String.intercalate "; " (es.map Issue.message)

/-! The schemas and example values of `src/main.tsx`, line by line. -/

/-- The field list of `UserSchema` (`src/main.tsx` lines 16 to 37). -/
def userShape : List (String × Parser) :=
  [("id", z.union [z.string, z.number]),
   ("username", z.string.min 3),
   ("age", z.number.gt 0),
   ("birthday", z.date.optional),
   ("isDeveloper", (z.boolean.nullable).default (.vbool false)),
   ("isSuperCool", z.literalBool true),
   ("hobbies", z.strEnum ["Woodworking", "Biking", "Guitar"]),
   ("family", (z.array z.string).nonempty),
   ("coordinates", z.tuple [z.number, z.string, (z.number.gt 80).int]),
   ("subscriptionRenewal", z.discriminatedUnion "status"
     [("success", [("status", z.literalStr "success"),
                   ("userSubscribed", z.boolean),
                   ("subscriptionTier", z.string)]),
      ("failed", [("status", z.literalStr "failed"),
                  ("error", z.instanceOfError)])])]

/-- `UserSchema` (`src/main.tsx` line 16): a non-strict object schema. -/
def UserSchema : Parser := z.object userShape

/-- The keys declared by `UserSchema`. -/
def userKeys : List String := userShape.map Prod.fst

/-- The `user` example value (`src/main.tsx` lines 63 to 81); `birthday` is
`new Date()`, so the run is parametrised by the current timestamp. -/
def user (now : Int) : Value :=
  .vobj
    [("id", .vstr "jfkdsaljfkd!!!$j34k2lj"),
     ("username", .vstr "jakeinerney"),
     ("age", .vnum 32),
     ("birthday", .vdate now),
     ("isDeveloper", .vbool true),
     ("isSuperCool", .vbool true),
     ("hobbies", .vstr "Guitar"),
     ("family", .varr [.vstr "Kaitlin", .vstr "Charlie"]),
     ("coordinates", .varr [.vnum 45, .vstr "38", .vnum 87]),
     ("subscriptionRenewal", .vobj
       [("status", .vstr "success"),
        ("userSubscribed", .vbool true),
        ("subscriptionTier", .vstr "whiteLabel")])]

/-- `UserRecord` (`src/main.tsx` line 102). -/
def UserRecord : Parser := z.record z.string

/-- `userWithRecord` (`src/main.tsx` lines 104 to 108). -/
def userWithRecord : Value :=
  .vobj
    [("keyDoesNotMatter", .vstr "this\x27ll log correctly"),
     ("thisKeyDoesNotMatterEither", .vstr "so will this")]

/-- `UserMap` (`src/main.tsx` line 116). -/
def UserMap : Parser := z.map z.string (z.object [("name", z.string)])

/-- `userFromMap` (`src/main.tsx` lines 118 to 121). -/
def userFromMap : Value :=
  .vmap
    [(.vstr "id-wayne", .vobj [("name", .vstr "Wayne")]),
     (.vstr "id-garth", .vobj [("name", .vstr "Garth")])]

/-- `PromiseSchema` (`src/main.tsx` line 129). -/
def PromiseSchema : Parser := z.promise z.string

/-- `promise` (`src/main.tsx` line 134): a promise pre-resolved with the
string it will deliver. -/
def promise : Value := .vpromise (.vstr "Hello there")

/-- JavaScript `String.prototype.endsWith`, modelled on character lists. -/
def strEndsWith (s suffixStr : String) : Bool :=
  suffixStr.data.reverse.isPrefixOf s.data.reverse

/-- The refinement predicate of `BrandEmail` (`src/main.tsx` line 149):
`val => val.endsWith('@grow.com')`. -/
def brandPred (v : Value) : Bool :=
  match v with
  | .vstr s => strEndsWith s "@grow.com"
  | _ => false

/-- `BrandEmail` (`src/main.tsx` lines 146 to 151). -/
def BrandEmail : Parser :=
  (z.string.email).refine brandPred "Email must end with @grow.com"

/-- `email` (`src/main.tsx` line 153). -/
def email : Value := .vstr "jake.mcinerney@grow.com"

/-! The top-to-bottom execution of the script. -/

/-- A validator invocation of the script, in source order: `UserSchema.parse(user)`
(line 83), `UserRecord.parse(userWithRecord)` (line 110),
`UserMap.parse(userFromMap)` (line 123), `PromiseSchema.parse(promise)`
(line 136), `BrandEmail.parse(email)` (line 156), and
`UserSchema.safeParse(user)` (line 182). -/
inductive Call where
  | userParse
  | recordParse
  | mapParse
  | promiseParse
  | emailParse
  | userSafeParse
deriving DecidableEq

/-- Whether a validator call receives the `user` example value. -/
def validatesUser : Call → Bool
  | .userParse => true
  | .userSafeParse => true
  | _ => false

/-- What a console log prints: a parsed value, or the formatted text
produced by `fromZodError`. -/
inductive LogValue where
  | value (v : Value)
  | text (s : String)

/-- An externally visible effect a script could perform. The source script
only ever logs to the console; the other constructors exist so that the
absence of file, network and persistence effects is a statement about the
run, not about the type. -/
inductive Effect where
  | consoleLog (payload : LogValue)
  | fileWrite (path content : String)
  | networkSend (message : String)
  | persistState (key content : String)

/-- Whether an effect is a console log. -/
def isConsoleLog : Effect → Bool
  | .consoleLog _ => true
  | _ => false

/-- One `console.log(schema.parse(value))` snippet: when the parse does
not throw, the parsed value is logged; when it throws, no log happens and
the error propagates. -/
def logSnippet (p : Parser) (v : Value) : Except (List Issue) Effect :=
  match p v with
  | .ok u => .ok (.consoleLog (.value u))
  | .error es => .error es

/-- The user snippet (`src/main.tsx` line 83): `console.log(UserSchema.parse(user))`. -/
def userSnippet (v : Value) : Except (List Issue) Effect :=
  logSnippet UserSchema v

/-- The record snippet (`src/main.tsx` line 110). -/
def recordSnippet (v : Value) : Except (List Issue) Effect :=
  logSnippet UserRecord v

/-- The map snippet (`src/main.tsx` line 123). -/
def mapSnippet (v : Value) : Except (List Issue) Effect :=
  logSnippet UserMap v

/-- The promise snippet (`src/main.tsx` line 136). -/
def promiseSnippet (v : Value) : Except (List Issue) Effect :=
  logSnippet PromiseSchema v

/-- The email snippet (`src/main.tsx` line 156). -/
def emailSnippet (v : Value) : Except (List Issue) Effect :=
  logSnippet BrandEmail v

/-- The error-handling snippet (`src/main.tsx` lines 182 to 186): the
`fromZodError` branch logs exactly when `safeParse` reports a failure. -/
def errorSnippet (v : Value) : Option Effect :=
  match UserSchema.safeParse v with
  | .success _ => none
  | .failure es => some (.consoleLog (.text (fromZodError es)))

/-- The example values each snippet feeds its validator; bundled so that
runs under modified inputs can be compared. -/
structure ScriptInputs where
  userV : Value
  recordV : Value
  mapV : Value
  promiseV : Value
  emailV : Value

/-- The observable outcome of one run of the script: the validator calls
that happened, the console log of each snippet (when it happened), and
whether an uncaught `ZodError` crashed the script. -/
structure RunOut where
  calls : List Call
  userLog : Option Effect
  recordLog : Option Effect
  mapLog : Option Effect
  promiseLog : Option Effect
  emailLog : Option Effect
  errorLog : Option Effect
  crashed : Bool

/-- All externally visible effects of a run, in source order. -/
def RunOut.effects (r : RunOut) : List Effect :=
  [r.userLog, r.recordLog, r.mapLog, r.promiseLog, r.emailLog, r.errorLog].filterMap id

/-- The top-to-bottom run of `src/main.tsx` on the given inputs: each
snippet in order; a parse that throws crashes the script, so later
snippets never run. -/
def runWith (i : ScriptInputs) : RunOut :=
  match userSnippet i.userV with
  | .error _ => ⟨[.userParse], none, none, none, none, none, none, true⟩
  | .ok e1 =>
    match recordSnippet i.recordV with
    | .error _ => ⟨[.userParse, .recordParse], some e1, none, none, none, none, none, true⟩
    | .ok e2 =>
      match mapSnippet i.mapV with
      | .error _ =>
        ⟨[.userParse, .recordParse, .mapParse], some e1, some e2, none, none, none, none, true⟩
      | .ok e3 =>
        match promiseSnippet i.promiseV with
        | .error _ =>
          ⟨[.userParse, .recordParse, .mapParse, .promiseParse],
           some e1, some e2, some e3, none, none, none, true⟩
        | .ok e4 =>
          match emailSnippet i.emailV with
          | .error _ =>
            ⟨[.userParse, .recordParse, .mapParse, .promiseParse, .emailParse],
             some e1, some e2, some e3, some e4, none, none, true⟩
          | .ok e5 =>
            ⟨[.userParse, .recordParse, .mapParse, .promiseParse, .emailParse, .userSafeParse],
             some e1, some e2, some e3, some e4, some e5, errorSnippet i.userV, false⟩

/-- The inputs the script actually uses, parametrised by the timestamp
`new Date()` produces for `user.birthday`. -/
def scriptInputs (now : Int) : ScriptInputs :=
  ⟨user now, userWithRecord, userFromMap, promise, email⟩

/-- `results` (`src/main.tsx` line 182). -/
def results (now : Int) : SafeResult :=
  UserSchema.safeParse (user now)

/-! Auxiliary predicates and concrete inputs used by the statements. -/

/-- Lookup of the schema a shape declares for a key. -/
def shapeLookup : List (String × Parser) → String → Option Parser
  | [], _ => none
  | (key, p) :: rest, k => if key = k then some p else shapeLookup rest k

/-- Whether a runtime value is a `Promise`. -/
def isPromiseValue : Value → Bool
  | .vpromise _ => true
  | _ => false

/-- Whether a runtime value is a string. -/
def isStringValue : Value → Bool
  | .vstr _ => true
  | _ => false

/-- The declared parser for the `isDeveloper` field of `UserSchema`
(`src/main.tsx` line 21). -/
def isDeveloperParser0 : Parser :=
  (z.boolean.nullable).default (.vbool false)

/-- The fields of `user` at timestamp 0 with `username` shortened below the
three-character minimum. -/
def shortNameFields : List (String × Value) :=
  [("id", .vstr "jfkdsaljfkd!!!$j34k2lj"),
   ("username", .vstr "ab"),
   ("age", .vnum 32),
   ("birthday", .vdate 0),
   ("isDeveloper", .vbool true),
   ("isSuperCool", .vbool true),
   ("hobbies", .vstr "Guitar"),
   ("family", .varr [.vstr "Kaitlin", .vstr "Charlie"]),
   ("coordinates", .varr [.vnum 45, .vstr "38", .vnum 87]),
   ("subscriptionRenewal", .vobj
     [("status", .vstr "success"),
      ("userSubscribed", .vbool true),
      ("subscriptionTier", .vstr "whiteLabel")])]

/-- The fields of `user` at timestamp 0 extended with the unknown key
`name` (the commented-out line 80 of the source). -/
def extraKeyFields : List (String × Value) :=
  [("id", .vstr "jfkdsaljfkd!!!$j34k2lj"),
   ("username", .vstr "jakeinerney"),
   ("age", .vnum 32),
   ("birthday", .vdate 0),
   ("isDeveloper", .vbool true),
   ("isSuperCool", .vbool true),
   ("hobbies", .vstr "Guitar"),
   ("family", .varr [.vstr "Kaitlin", .vstr "Charlie"]),
   ("coordinates", .varr [.vnum 45, .vstr "38", .vnum 87]),
   ("subscriptionRenewal", .vobj
     [("status", .vstr "success"),
      ("userSubscribed", .vbool true),
      ("subscriptionTier", .vstr "whiteLabel")]),
   ("name", .vstr "Jake")]

/-- The fields of `user` at timestamp 0 with the `isDeveloper` key absent. -/
def noDevFields : List (String × Value) :=
  [("id", .vstr "jfkdsaljfkd!!!$j34k2lj"),
   ("username", .vstr "jakeinerney"),
   ("age", .vnum 32),
   ("birthday", .vdate 0),
   ("isSuperCool", .vbool true),
   ("hobbies", .vstr "Guitar"),
   ("family", .varr [.vstr "Kaitlin", .vstr "Charlie"]),
   ("coordinates", .varr [.vnum 45, .vstr "38", .vnum 87]),
   ("subscriptionRenewal", .vobj
     [("status", .vstr "success"),
      ("userSubscribed", .vbool true),
      ("subscriptionTier", .vstr "whiteLabel")])]

/-- The fields of `user` at timestamp 0 with `isDeveloper` set to `null`. -/
def nullDevFields : List (String × Value) :=
  [("id", .vstr "jfkdsaljfkd!!!$j34k2lj"),
   ("username", .vstr "jakeinerney"),
   ("age", .vnum 32),
   ("birthday", .vdate 0),
   ("isDeveloper", .vnull),
   ("isSuperCool", .vbool true),
   ("hobbies", .vstr "Guitar"),
   ("family", .varr [.vstr "Kaitlin", .vstr "Charlie"]),
   ("coordinates", .varr [.vnum 45, .vstr "38", .vnum 87]),
   ("subscriptionRenewal", .vobj
     [("status", .vstr "success"),
      ("userSubscribed", .vbool true),
      ("subscriptionTier", .vstr "whiteLabel")])]

/-- The script inputs with the record snippet's value replaced by the
object of the commented-out line 107 of the source, whose value `1` is not
a string. -/
def badRecordInputs : ScriptInputs :=
  { scriptInputs 0 with recordV := .vobj [("thisWillThrowAnError", .vnum 1)] }

/-! Helper lemmas about object, record and snippet parsing. -/

theorem parseShape_cons_ok {key : String} {p : Parser} {rest : List (String × Parser)}
    {fields : List (String × Value)} {o : Value} (h : p (valueAt fields key) = .ok o) :
    parseShape ((key, p) :: rest) fields =
      ((parseShape rest fields).1,
       if keepField (lookupField fields key) o then (key, o) :: (parseShape rest fields).2
       else (parseShape rest fields).2) := by
  unfold valueAt at h
  simp only [parseShape]
  rw [h]

theorem parseShape_cons_err {key : String} {p : Parser} {rest : List (String × Parser)}
    {fields : List (String × Value)} {es : List Issue} (h : p (valueAt fields key) = .error es) :
    parseShape ((key, p) :: rest) fields =
      (es ++ (parseShape rest fields).1, (parseShape rest fields).2) := by
  unfold valueAt at h
  simp only [parseShape]
  rw [h]

theorem parseShape_fst_ne_nil {shape : List (String × Parser)} {fields : List (String × Value)}
    {key : String} {p : Parser} {es : List Issue}
    (hmem : (key, p) ∈ shape) (hp : p (valueAt fields key) = .error es) (hne : es ≠ []) :
    (parseShape shape fields).1 ≠ [] := by
  induction shape with
  | nil => cases hmem
  | cons hd tl ih =>
    obtain ⟨k0, p0⟩ := hd
    rcases List.mem_cons.mp hmem with heq | hmem2
    · injection heq with h1 h2
      subst h1
      subst h2
      rw [parseShape_cons_err hp]
      simp [List.append_eq_nil, hne]
    · cases hr : p0 (valueAt fields k0) with
      | ok o =>
        rw [parseShape_cons_ok hr]
        simpa using ih hmem2
      | error es0 =>
        rw [parseShape_cons_err hr]
        have htl := ih hmem2
        simp only [List.append_eq_nil]
        intro hcon
        exact htl (List.append_eq_nil.mp hcon).2

theorem mem_of_lookupField_parseShape {shape : List (String × Parser)}
    {fields : List (String × Value)} {k : String}
    (h : lookupField (parseShape shape fields).2 k ≠ none) :
    k ∈ shape.map Prod.fst := by
  induction shape with
  | nil => exact absurd rfl h
  | cons hd tl ih =>
    obtain ⟨k0, p0⟩ := hd
    simp only [List.map_cons]
    cases hr : p0 (valueAt fields k0) with
    | ok o =>
      rw [parseShape_cons_ok hr] at h
      simp only [] at h
      by_cases hkeep : keepField (lookupField fields k0) o = true
      · rw [if_pos hkeep] at h
        by_cases hk : k0 = k
        · exact hk ▸ List.mem_cons_self _ _
        · simp only [lookupField, if_neg hk] at h
          exact List.mem_cons_of_mem _ (ih h)
      · rw [if_neg hkeep] at h
        exact List.mem_cons_of_mem _ (ih h)
    | error es =>
      rw [parseShape_cons_err hr] at h
      exact List.mem_cons_of_mem _ (ih h)

theorem lookupField_parseShape_ok {shape : List (String × Parser)}
    {fields : List (String × Value)} {k : String} {p : Parser} {o : Value}
    (hnd : (shape.map Prod.fst).Nodup) (hsl : shapeLookup shape k = some p)
    (hr : p (valueAt fields k) = .ok o) :
    lookupField (parseShape shape fields).2 k =
      if keepField (lookupField fields k) o then some o else none := by
  induction shape with
  | nil => cases hsl
  | cons hd tl ih =>
    obtain ⟨k0, p0⟩ := hd
    simp only [List.map_cons, List.nodup_cons] at hnd
    obtain ⟨hk0, hndtl⟩ := hnd
    by_cases hk : k0 = k
    · subst hk
      have hp : p0 = p := by simpa [shapeLookup] using hsl
      subst hp
      have habsent : lookupField (parseShape tl fields).2 k0 = none := by
        by_contra hcon
        exact hk0 (mem_of_lookupField_parseShape hcon)
      rw [parseShape_cons_ok hr]
      by_cases hkeep : keepField (lookupField fields k0) o = true
      · simp [lookupField, hkeep]
      · simp [hkeep, habsent]
    · have hsl2 : shapeLookup tl k = some p := by simpa [shapeLookup, hk] using hsl
      cases hr0 : p0 (valueAt fields k0) with
      | ok o0 =>
        rw [parseShape_cons_ok hr0]
        by_cases hkeep : keepField (lookupField fields k0) o0 = true
        · simp only [hkeep, if_true, lookupField, if_neg hk]
          exact ih hndtl hsl2
        · simp only [hkeep, if_false]
          exact ih hndtl hsl2
      | error es =>
        rw [parseShape_cons_err hr0]
        exact ih hndtl hsl2

theorem object_parse_ok {shape : List (String × Parser)} {fields : List (String × Value)}
    (h : (parseShape shape fields).1 = []) :
    z.object shape (.vobj fields) = .ok (.vobj (parseShape shape fields).2) := by
  simp [z.object, h]

theorem object_parse_err {shape : List (String × Parser)} {fields : List (String × Value)}
    (h : (parseShape shape fields).1 ≠ []) :
    z.object shape (.vobj fields) = .error (parseShape shape fields).1 := by
  cases hi : (parseShape shape fields).1 with
  | nil => exact absurd hi h
  | cons a as => simp [z.object, hi]

theorem recordGo_fst_nil_iff {fields : List (String × Value)} :
    (recordGo z.string fields).1 = [] ↔ ∀ kv ∈ fields, isStringValue kv.2 = true := by
  induction fields with
  | nil => simp [recordGo]
  | cons hd tl ih =>
    obtain ⟨k, v⟩ := hd
    cases v <;> simp_all [recordGo, z.string, isStringValue, List.append_eq_nil]

theorem logSnippet_console {p : Parser} {v : Value} {e : Effect}
    (h : logSnippet p v = .ok e) : isConsoleLog e = true := by
  unfold logSnippet at h
  cases hp : p v with
  | ok u =>
    rw [hp] at h
    injection h with h1
    rw [← h1]
    rfl
  | error es =>
    rw [hp] at h
    exact absurd h (by simp)

theorem errorSnippet_console {v : Value} {e : Effect}
    (h : errorSnippet v = some e) : isConsoleLog e = true := by
  unfold errorSnippet at h
  cases hp : UserSchema.safeParse v with
  | success d =>
    rw [hp] at h
    exact absurd h (by simp)
  | failure es =>
    rw [hp] at h
    injection h with h1
    rw [← h1]
    rfl

/-! The claims. -/

/-- C1: for every input value, `UserSchema.safeParse` does not throw (it
always returns a result object): it returns a success result exactly when
the parse succeeds, and otherwise a failure result carrying exactly the
validation error under which `UserSchema.parse` would throw. -/
theorem C1_safeParse_never_throws :
    ∀ v : Value,
      (∃ d, UserSchema.safeParse v = .success d ∧ UserSchema v = .ok d) ∨
      (∃ es, UserSchema.safeParse v = .failure es ∧ UserSchema v = .error es) := by
  intro v
  cases h : UserSchema v with
  | ok d =>
    exact .inl ⟨d, by simp [Parser.safeParse, h], rfl⟩
  | error es =>
    exact .inr ⟨es, by simp [Parser.safeParse, h], rfl⟩

/-- C3: every input object whose `username` field is a string of fewer
than 3 characters is rejected by `UserSchema` (the parse throws a
`ZodError`, and `safeParse` never reports success), whatever the other
fields hold. -/
theorem C3_short_username_rejected :
    ∀ (fields : List (String × Value)) (s : String),
      lookupField fields "username" = some (.vstr s) → s.length < 3 →
      (∃ es, UserSchema (.vobj fields) = .error es) ∧
      ∀ d, UserSchema.safeParse (.vobj fields) ≠ .success d := by
  intro fields s hlook hlen
  have hval : valueAt fields "username" = .vstr s := by
    simp [valueAt, hlook]
  have hmem : ("username", z.string.min 3) ∈ userShape := by
    simp [userShape]
  have hp : (z.string.min 3) (valueAt fields "username") =
      .error [⟨"too_small", "String must contain at least the minimum number of characters"⟩] := by
    rw [hval]
    simp [Parser.min, z.string, hlen]
  have hne := parseShape_fst_ne_nil hmem hp (by simp)
  have herr : UserSchema (.vobj fields) = .error (parseShape userShape fields).1 :=
    object_parse_err hne
  refine ⟨⟨_, herr⟩, ?_⟩
  intro d hcon
  rw [Parser.safeParse, herr] at hcon
  cases hcon

/-- C4: `PromiseSchema.parse` is synchronous: on any promise input it
immediately returns the promise value, without inspecting the value the
promise resolves to (validation is deferred), and on any non-promise input
it immediately throws. -/
theorem C4_promise_parse_sync :
    (∀ x : Value, PromiseSchema (.vpromise x) = .ok (.vpromise x)) ∧
    (∀ v : Value, isPromiseValue v = false → ∃ es, PromiseSchema v = .error es) := by
  constructor
  · intro x
    rfl
  · intro v hv
    cases v with
    | vpromise x => simp [isPromiseValue] at hv
    | vstr s => exact ⟨_, rfl⟩
    | vnum q => exact ⟨_, rfl⟩
    | vbool b => exact ⟨_, rfl⟩
    | vdate ms => exact ⟨_, rfl⟩
    | vnull => exact ⟨_, rfl⟩
    | vundefined => exact ⟨_, rfl⟩
    | verror => exact ⟨_, rfl⟩
    | varr xs => exact ⟨_, rfl⟩
    | vobj fs => exact ⟨_, rfl⟩
    | vmap es => exact ⟨_, rfl⟩

/-- Witness for C3: the script's user with username shortened to "ab" is
rejected by parse and by safeParse. -/
theorem C3_witness :
    lookupField shortNameFields "username" = some (.vstr "ab") ∧ "ab".length < 3 ∧
    (∃ es, UserSchema (.vobj shortNameFields) = .error es) ∧
    ∀ d, UserSchema.safeParse (.vobj shortNameFields) ≠ .success d := by
  refine ⟨rfl, by decide, ?_, ?_⟩
  · exact (C3_short_username_rejected shortNameFields "ab" rfl (by decide)).1
  · exact (C3_short_username_rejected shortNameFields "ab" rfl (by decide)).2

/-- Witness for C4: the pre-resolved promise of the script parses to
itself, and the non-promise string it resolves to is rejected when passed
directly. -/
theorem C4_witness :
    PromiseSchema promise = .ok (.vpromise (.vstr "Hello there")) ∧
    isPromiseValue (.vstr "Hello there") = false ∧
    ∃ es, PromiseSchema (.vstr "Hello there") = .error es := by
  refine ⟨C4_promise_parse_sync.1 (.vstr "Hello there"), rfl, ?_⟩
  exact C4_promise_parse_sync.2 (.vstr "Hello there") rfl

/-- C8: `UserSchema` is non-strict: an input object on which every declared
field rule succeeds parses successfully even when it carries additional
unknown keys, and the returned object strips those unknown keys (every key
of the output object is a declared key). -/
theorem C8_unknown_keys_stripped :
    ∀ fields : List (String × Value), (parseShape userShape fields).1 = [] →
      UserSchema (.vobj fields) = .ok (.vobj (parseShape userShape fields).2) ∧
      ∀ k, k ∉ userKeys → lookupField (parseShape userShape fields).2 k = none := by
  intro fields h
  refine ⟨object_parse_ok h, ?_⟩
  intro k hk
  by_contra hcon
  exact hk (mem_of_lookupField_parseShape hcon)

/-- Witness for C8: the script's user extended with the unknown key `name`
parses successfully and the output carries no `name` key. -/
theorem C8_witness :
    (parseShape userShape extraKeyFields).1 = [] ∧ "name" ∉ userKeys ∧
    UserSchema (.vobj extraKeyFields) = .ok (.vobj (parseShape userShape extraKeyFields).2) ∧
    lookupField (parseShape userShape extraKeyFields).2 "name" = none := by
  refine ⟨by decide, by decide, ?_, ?_⟩
  · exact (C8_unknown_keys_stripped extraKeyFields (by decide)).1
  · exact (C8_unknown_keys_stripped extraKeyFields (by decide)).2 "name" (by decide)

/-- C9: on an input object on which every declared field rule succeeds, an
absent `isDeveloper` key yields a parsed object whose `isDeveloper` is the
declared default `false`, and an explicit `null` for `isDeveloper` is
accepted and preserved in the parsed object. -/
theorem C9_isDeveloper_default_and_null :
    ∀ fields : List (String × Value), (parseShape userShape fields).1 = [] →
      (lookupField fields "isDeveloper" = none →
        UserSchema (.vobj fields) = .ok (.vobj (parseShape userShape fields).2) ∧
        lookupField (parseShape userShape fields).2 "isDeveloper" = some (.vbool false)) ∧
      (lookupField fields "isDeveloper" = some .vnull →
        UserSchema (.vobj fields) = .ok (.vobj (parseShape userShape fields).2) ∧
        lookupField (parseShape userShape fields).2 "isDeveloper" = some .vnull) := by
  intro fields h
  have hnd : (userShape.map Prod.fst).Nodup := by decide
  have hsl : shapeLookup userShape "isDeveloper" = some isDeveloperParser0 := by
    rfl
  constructor
  · intro habs
    refine ⟨object_parse_ok h, ?_⟩
    have hval : valueAt fields "isDeveloper" = .vundefined := by
      simp [valueAt, habs]
    have hr : isDeveloperParser0 (valueAt fields "isDeveloper") = .ok (.vbool false) := by
      rw [hval]
      rfl
    rw [lookupField_parseShape_ok hnd hsl hr, habs]
    rfl
  · intro hnull
    refine ⟨object_parse_ok h, ?_⟩
    have hval : valueAt fields "isDeveloper" = .vnull := by
      simp [valueAt, hnull]
    have hr : isDeveloperParser0 (valueAt fields "isDeveloper") = .ok .vnull := by
      rw [hval]
      rfl
    rw [lookupField_parseShape_ok hnd hsl hr, hnull]
    rfl

/-- Witness for C9: the script's user without its `isDeveloper` key parses
with `isDeveloper` defaulted to `false`, and with `isDeveloper: null` the
`null` is preserved. -/
theorem C9_witness :
    ((parseShape userShape noDevFields).1 = [] ∧ lookupField noDevFields "isDeveloper" = none ∧
      UserSchema (.vobj noDevFields) = .ok (.vobj (parseShape userShape noDevFields).2) ∧
      lookupField (parseShape userShape noDevFields).2 "isDeveloper" = some (.vbool false)) ∧
    ((parseShape userShape nullDevFields).1 = [] ∧
      lookupField nullDevFields "isDeveloper" = some .vnull ∧
      UserSchema (.vobj nullDevFields) = .ok (.vobj (parseShape userShape nullDevFields).2) ∧
      lookupField (parseShape userShape nullDevFields).2 "isDeveloper" = some .vnull) := by
  constructor
  · refine ⟨by decide, rfl, ?_, ?_⟩
    · exact ((C9_isDeveloper_default_and_null noDevFields (by decide)).1 rfl).1
    · exact ((C9_isDeveloper_default_and_null noDevFields (by decide)).1 rfl).2
  · refine ⟨by decide, rfl, ?_, ?_⟩
    · exact ((C9_isDeveloper_default_and_null nullDevFields (by decide)).2 rfl).1
    · exact ((C9_isDeveloper_default_and_null nullDevFields (by decide)).2 rfl).2

/-- C10: `UserRecord` validates values but not keys: it accepts every
object all of whose property values are strings, whatever the key names,
and rejects every object containing a non-string property value. -/
theorem C10_record_checks_values_not_keys :
    ∀ fields : List (String × Value),
      ((∀ kv ∈ fields, isStringValue kv.2 = true) →
        UserRecord (.vobj fields) = .ok (.vobj (recordGo z.string fields).2)) ∧
      ((∃ kv ∈ fields, isStringValue kv.2 = false) →
        ∃ es, UserRecord (.vobj fields) = .error es) := by
  intro fields
  constructor
  · intro hall
    have h : (recordGo z.string fields).1 = [] := recordGo_fst_nil_iff.mpr hall
    simp [UserRecord, z.record, h]
  · intro hbad
    have h : (recordGo z.string fields).1 ≠ [] := by
      intro hnil
      obtain ⟨kv, hmem, hfalse⟩ := hbad
      rw [recordGo_fst_nil_iff.mp hnil kv hmem] at hfalse
      cases hfalse
    cases hi : (recordGo z.string fields).1 with
    | nil => exact absurd hi h
    | cons a as =>
      refine ⟨a :: as, ?_⟩
      simp [UserRecord, z.record, hi]

/-- Witness for C10: the record object of the script (arbitrary keys, all
string values) is accepted, and the object of the commented-out line 107
(value `1`) is rejected. -/
theorem C10_witness :
    UserRecord userWithRecord =
      .ok (.vobj (recordGo z.string
        [("keyDoesNotMatter", .vstr "this\x27ll log correctly"),
         ("thisKeyDoesNotMatterEither", .vstr "so will this")]).2) ∧
    ∃ es, UserRecord (.vobj [("thisWillThrowAnError", .vnum 1)]) = .error es := by
  constructor
  · exact (C10_record_checks_values_not_keys _).1 (by decide)
  · exact (C10_record_checks_values_not_keys _).2
      ⟨("thisWillThrowAnError", .vnum 1), List.mem_cons_self _ _, rfl⟩

/-- C2, counterexample: contrary to the claim, the `fromZodError` branch
does not execute for the user value defined in the script: `safeParse`
succeeds on it (for any timestamp 0 of `new Date()`), so the error-handling
snippet logs nothing. -/
theorem C2_counterexample :
    (∃ d, results 0 = .success d) ∧ errorSnippet (user 0) = none ∧
    (runWith (scriptInputs 0)).errorLog = none := by
  exact ⟨⟨_, rfl⟩, rfl, rfl⟩

/-- C2, amended: the branch calling `fromZodError` executes exactly when
`UserSchema.safeParse` reports failure, but for the user value defined in
the script `safeParse` succeeds, so during the run the branch does not
execute and nothing is logged by it. -/
theorem C2_branch_iff_failure :
    (∀ v : Value,
      (errorSnippet v).isSome = true ↔ ∃ es, UserSchema.safeParse v = .failure es) ∧
    (∀ now : Int, (∃ d, results now = .success d) ∧ errorSnippet (user now) = none ∧
      (runWith (scriptInputs now)).errorLog = none) := by
  constructor
  · intro v
    unfold errorSnippet
    cases hp : UserSchema.safeParse v with
    | success d => simp
    | failure es => simp
  · intro now
    exact ⟨⟨_, rfl⟩, rfl, rfl⟩

/-- C5, counterexample: contrary to the claim, the user record is not
passed to the validators exactly once during a run: it is validated twice,
once by `parse` (line 83) and once by `safeParse` (line 182). -/
theorem C5_counterexample :
    (runWith (scriptInputs 0)).calls.countP validatesUser = 2 := by
  decide

/-- C5, amended: during a run of the script, the record of strings, the
map of users, the promise and the email are each passed to their validator
exactly once; the user record is passed twice (`parse`, then `safeParse`). -/
theorem C5_call_trace :
    ∀ now : Int,
      (runWith (scriptInputs now)).calls =
        [.userParse, .recordParse, .mapParse, .promiseParse, .emailParse, .userSafeParse] ∧
      (runWith (scriptInputs now)).calls.countP validatesUser = 2 ∧
      (runWith (scriptInputs now)).calls.count .recordParse = 1 ∧
      (runWith (scriptInputs now)).calls.count .mapParse = 1 ∧
      (runWith (scriptInputs now)).calls.count .promiseParse = 1 ∧
      (runWith (scriptInputs now)).calls.count .emailParse = 1 := by
  intro now
  exact ⟨rfl, rfl, rfl, rfl, rfl, rfl⟩

/-- C6, counterexample: contrary to the claim, not every demonstration call
contributes a console log: the `safeParse` demonstration call happens
during the run, yet the run's six validator calls produce only five console
logs, the error-handling snippet logging nothing because validation
succeeds. -/
theorem C6_counterexample :
    (.userSafeParse ∈ (runWith (scriptInputs 0)).calls) ∧
    (runWith (scriptInputs 0)).errorLog = none ∧
    (runWith (scriptInputs 0)).effects.length = 5 := by
  exact ⟨by decide, rfl, rfl⟩

/-- C6, amended: console output is the only externally visible effect of a
run (every effect of any run is a console log), and in the script's run the
five `console.log` demonstration calls each contribute one log while the
error-handling demonstration contributes none, its validation succeeding. -/
theorem C6_console_only :
    (∀ i : ScriptInputs, ((runWith i).effects.all isConsoleLog) = true) ∧
    (∀ now : Int,
      (runWith (scriptInputs now)).effects.length = 5 ∧
      (runWith (scriptInputs now)).userLog.isSome = true ∧
      (runWith (scriptInputs now)).recordLog.isSome = true ∧
      (runWith (scriptInputs now)).mapLog.isSome = true ∧
      (runWith (scriptInputs now)).promiseLog.isSome = true ∧
      (runWith (scriptInputs now)).emailLog.isSome = true ∧
      (runWith (scriptInputs now)).errorLog = none) := by
  constructor
  · intro i
    unfold runWith
    cases h1 : userSnippet i.userV with
    | error es1 => simp [RunOut.effects]
    | ok e1 =>
      cases h2 : recordSnippet i.recordV with
      | error es2 => simp [RunOut.effects, logSnippet_console h1]
      | ok e2 =>
        cases h3 : mapSnippet i.mapV with
        | error es3 => simp [RunOut.effects, logSnippet_console h1, logSnippet_console h2]
        | ok e3 =>
          cases h4 : promiseSnippet i.promiseV with
          | error es4 =>
            simp [RunOut.effects, logSnippet_console h1, logSnippet_console h2,
              logSnippet_console h3]
          | ok e4 =>
            cases h5 : emailSnippet i.emailV with
            | error es5 =>
              simp [RunOut.effects, logSnippet_console h1, logSnippet_console h2,
                logSnippet_console h3, logSnippet_console h4]
            | ok e5 =>
              cases h6 : errorSnippet i.userV with
              | none =>
                simp [RunOut.effects, logSnippet_console h1, logSnippet_console h2,
                  logSnippet_console h3, logSnippet_console h4, logSnippet_console h5]
              | some e6 =>
                simp [RunOut.effects, logSnippet_console h1, logSnippet_console h2,
                  logSnippet_console h3, logSnippet_console h4, logSnippet_console h5,
                  errorSnippet_console h6]
  · intro now
    exact ⟨rfl, rfl, rfl, rfl, rfl, rfl, rfl⟩

/-- C7, counterexample: contrary to the claim, changing another snippet's
input can change a snippet's output: replacing only the record snippet's
value by the object of the commented-out line 107 makes the record parse
throw, which crashes the script, so the map snippet (whose own input is
unchanged) loses its console log. -/
theorem C7_counterexample :
    badRecordInputs.userV = (scriptInputs 0).userV ∧
    badRecordInputs.mapV = (scriptInputs 0).mapV ∧
    badRecordInputs.promiseV = (scriptInputs 0).promiseV ∧
    badRecordInputs.emailV = (scriptInputs 0).emailV ∧
    (runWith badRecordInputs).mapLog = none ∧
    (runWith (scriptInputs 0)).mapLog.isSome = true := by
  exact ⟨rfl, rfl, rfl, rfl, rfl, rfl⟩

/-- C7, amended: whenever a snippet produces console output, that output is
determined solely by the snippet's own schema and example value; but a
validation failure in an earlier snippet throws and crashes the script, so
a later snippet may produce no output at all. -/
theorem C7_snippet_independence :
    ∀ i : ScriptInputs,
      ((runWith i).userLog = none ∨ (runWith i).userLog = (userSnippet i.userV).toOption) ∧
      ((runWith i).recordLog = none ∨
        (runWith i).recordLog = (recordSnippet i.recordV).toOption) ∧
      ((runWith i).mapLog = none ∨ (runWith i).mapLog = (mapSnippet i.mapV).toOption) ∧
      ((runWith i).promiseLog = none ∨
        (runWith i).promiseLog = (promiseSnippet i.promiseV).toOption) ∧
      ((runWith i).emailLog = none ∨ (runWith i).emailLog = (emailSnippet i.emailV).toOption) ∧
      ((runWith i).errorLog = none ∨ (runWith i).errorLog = errorSnippet i.userV) := by
  intro i
  unfold runWith
  cases h1 : userSnippet i.userV with
  | error es1 => exact ⟨.inl rfl, .inl rfl, .inl rfl, .inl rfl, .inl rfl, .inl rfl⟩
  | ok e1 =>
    cases h2 : recordSnippet i.recordV with
    | error es2 => exact ⟨.inr rfl, .inl rfl, .inl rfl, .inl rfl, .inl rfl, .inl rfl⟩
    | ok e2 =>
      cases h3 : mapSnippet i.mapV with
      | error es3 => exact ⟨.inr rfl, .inr rfl, .inl rfl, .inl rfl, .inl rfl, .inl rfl⟩
      | ok e3 =>
        cases h4 : promiseSnippet i.promiseV with
        | error es4 => exact ⟨.inr rfl, .inr rfl, .inr rfl, .inl rfl, .inl rfl, .inl rfl⟩
        | ok e4 =>
          cases h5 : emailSnippet i.emailV with
          | error es5 => exact ⟨.inr rfl, .inr rfl, .inr rfl, .inr rfl, .inl rfl, .inl rfl⟩
          | ok e5 => exact ⟨.inr rfl, .inr rfl, .inr rfl, .inr rfl, .inr rfl, .inr rfl⟩

end ZodDemo
